import Mathlib

/-!
Verification development for the document-RAG backend (`rag-backend/app`).

The Python modules `app/core/embeddings.py`, `app/api/query.py`,
`app/api/ingestion.py` and `app/api/document_select.py` are shallowly
embedded below.  Pure helpers become Lean functions; the `while` loop of
`chunk_text` and the batching `for` loop of `generate_embeddings` become
fuel-based recursions (a `none` result of the chunk loop means the Python
loop never terminates for that input); Python exceptions become explicit
`Except`/outcome values.  Machine integers of the source are Python
arbitrary-precision ints; all index arithmetic in the embedded fragment
stays non-negative whenever `overlap ≤ chunk_size`, which is the regime
every theorem below uses, so `Nat` arithmetic coincides with the source
(`total_tokens - overlap` is clamped at `0` exactly as the Python
comparison `i >= total_tokens - overlap` is vacuous once the right side
is non-positive).

External collaborators (tiktoken, the OpenAI client, sklearn, the LLM)
are passed in as explicit function parameters, mirroring the process-wide
handles of the source.
-/

/-- Tokenizer adapter (source: `get_encoding_for_model`, backed by the
external tiktoken library): an encoder/decoder pair between text and
token sequences. -/
structure Encoding where
  encode : String → List Nat
  decode : List Nat → String

/-- A concrete tokenizer used to instantiate witnesses: one token per
character.  Like the cl100k_base encoding of the source it assigns at
least one token to every non-empty string (in particular to `" "`). -/
def charEncoding : Encoding where
  encode s := s.data.map Char.toNat
  decode ts := String.mk (ts.map Char.ofNat)

/-- Statistics dictionary returned by `chunk_text`.  The early-return
dict of the source (`embeddings.py` line 64) has no `min_chunk_tokens` /
`max_chunk_tokens` keys; those two fields are therefore `Option`s and
the early return leaves them `none`. -/
structure ChunkStats where
  total_tokens : Nat
  chunk_count : Nat
  avg_chunk_tokens : ℚ
  min_chunk_tokens : Option Nat
  max_chunk_tokens : Option Nat
  deriving DecidableEq, Repr

/-- The zero-valued stats dict `{"total_tokens": 0, "chunk_count": 0,
"avg_chunk_tokens": 0}` of `embeddings.py` line 64. -/
def zeroStats : ChunkStats := ⟨0, 0, 0, none, none⟩

/-- `min(l)` of Python for a non-empty list (callers guard emptiness). -/
def listMin (l : List Nat) : Nat := l.foldr Nat.min (l.headD 0)

/-- `max(l)` of Python for a non-empty list of naturals. -/
def listMax (l : List Nat) : Nat := l.foldr Nat.max 0

/-- The `while i < total_tokens` loop of `chunk_text`
(`embeddings.py` lines 81-98), one fuel unit per iteration.  State: `i`
is the window start, `acc` the chunks emitted so far (as token slices;
decoding happens in `chunk_text` below).  `none` means the fuel ran out,
i.e. the Python loop runs longer than the given fuel. -/
def chunkLoop (chunk_size overlap : Nat) (t : List Nat) :
    Nat → Nat → List (List Nat) → Option (List (List Nat))
  | 0, _, _ => none
  | fuel + 1, i, acc =>
    if i < t.length then
      if t.length - overlap ≤ i + (chunk_size - overlap) ∧
          i + (chunk_size - overlap) < t.length then
        some ((acc ++ [(t.drop i).take (min (i + chunk_size) t.length - i)]) ++
          [t.drop (i + (chunk_size - overlap))])
      else
        chunkLoop chunk_size overlap t fuel (i + (chunk_size - overlap))
          (acc ++ [(t.drop i).take (min (i + chunk_size) t.length - i)])
    else some acc

/-- The chunk loop of `chunk_text` run on a token list, with enough fuel
for every terminating execution: with a positive stride the start index
grows by at least `1` per iteration, so `length + 1` iterations always
suffice; `none` therefore means the Python loop diverges. -/
def chunkTokens (chunk_size overlap : Nat) (t : List Nat) : Option (List (List Nat)) :=
  chunkLoop chunk_size overlap t (t.length + 1) 0 []

/-- `chunk_text` (`embeddings.py` lines 45-109): the empty-string early
return (`if not text`), tokenization, the chunk loop, decoding of each
token slice, and the statistics dict. -/
def chunk_text (enc : Encoding) (text : String) (chunk_size overlap : Nat) :
    Option (List String × ChunkStats) :=
  if text = "" then some ([], zeroStats)
  else
    match chunkTokens chunk_size overlap (enc.encode text) with
    | none => none
    | some slices =>
      some (slices.map enc.decode,
        { total_tokens := (enc.encode text).length
          chunk_count := slices.length
          avg_chunk_tokens :=
            if slices.isEmpty then 0
            else ((slices.map List.length).sum : ℚ) / (slices.length : ℚ)
          min_chunk_tokens :=
            some (if slices.isEmpty then 0 else listMin (slices.map List.length))
          max_chunk_tokens :=
            some (if slices.isEmpty then 0 else listMax (slices.map List.length)) })

/-- Unfolding equation of `chunkLoop` for positive fuel, stated once so
that proofs can step the loop with `rw` at numeral fuels. -/
theorem chunkLoop_succ (chunk_size overlap : Nat) (t : List Nat)
    (fuel i : Nat) (acc : List (List Nat)) :
    chunkLoop chunk_size overlap t (fuel + 1) i acc =
      if i < t.length then
        if t.length - overlap ≤ i + (chunk_size - overlap) ∧
            i + (chunk_size - overlap) < t.length then
          some ((acc ++ [(t.drop i).take (min (i + chunk_size) t.length - i)]) ++
            [t.drop (i + (chunk_size - overlap))])
        else
          chunkLoop chunk_size overlap t fuel (i + (chunk_size - overlap))
            (acc ++ [(t.drop i).take (min (i + chunk_size) t.length - i)])
      else some acc := rfl

/-- On any token list of length 2500 with `chunk_size = 1000` and
`overlap = 200` the loop emits the windows starting at 0, 800 and 1600
and then the tail-rule chunk starting at 2400. -/
theorem chunkTokens_len2500 (t : List Nat) (h : t.length = 2500) :
    chunkTokens 1000 200 t =
      some [t.take 1000, (t.drop 800).take 1000, (t.drop 1600).take 900, t.drop 2400] := by
  unfold chunkTokens
  rw [h]
  rw [show (2500 : Nat) + 1 = 2500 + 1 from rfl, chunkLoop_succ]
  rw [h]
  norm_num
  rw [show (2500 : Nat) = 2499 + 1 from rfl, chunkLoop_succ]
  rw [h]
  norm_num
  rw [show (2499 : Nat) = 2498 + 1 from rfl, chunkLoop_succ]
  rw [h]
  norm_num

/-- `MAX_TOKENS_PER_CHUNK` (`embeddings.py` line 31). -/
def MAX_TOKENS_PER_CHUNK : Nat := 8191

/-- `validate_chunk_length` (`embeddings.py` lines 111-134): compare the
token count with the model limit, truncating to the first
`MAX_TOKENS_PER_CHUNK` tokens when over it. -/
def validate_chunk_length (enc : Encoding) (chunk : String) : Bool × Option String :=
  let tokens := enc.encode chunk
  if tokens.length ≤ MAX_TOKENS_PER_CHUNK then (true, none)
  else (false, some (enc.decode (tokens.take MAX_TOKENS_PER_CHUNK)))

/-- `prepare_chunks_for_embedding` (`embeddings.py` lines 136-156):
keep valid chunks, substitute the truncation otherwise. -/
def prepare_chunks_for_embedding (enc : Encoding) (chunks : List String) : List String :=
  chunks.foldl (fun validated chunk =>
    match validate_chunk_length enc chunk with
    | (true, _) => validated ++ [chunk]
    | (false, some truncated) => validated ++ [truncated]
    | (false, none) => validated) []

/-- The per-chunk result of validation: the chunk itself when within the
limit, its truncation otherwise. -/
def validatedChunk (enc : Encoding) (chunk : String) : String :=
  if (enc.encode chunk).length ≤ MAX_TOKENS_PER_CHUNK then chunk
  else enc.decode ((enc.encode chunk).take MAX_TOKENS_PER_CHUNK)

theorem prepare_foldl_eq (enc : Encoding) (chunks : List String) :
    ∀ acc : List String,
      chunks.foldl (fun validated chunk =>
        match validate_chunk_length enc chunk with
        | (true, _) => validated ++ [chunk]
        | (false, some truncated) => validated ++ [truncated]
        | (false, none) => validated) acc =
      acc ++ chunks.map (validatedChunk enc) := by
  induction chunks with
  | nil => intro acc; simp
  | cons c rest ih =>
    intro acc
    simp only [List.foldl_cons, List.map_cons]
    rw [ih]
    unfold validate_chunk_length validatedChunk
    by_cases hc : (enc.encode c).length ≤ MAX_TOKENS_PER_CHUNK
    · simp [hc]
    · simp [hc]

/-- `prepare_chunks_for_embedding` maps `validatedChunk` over its input:
it never drops nor reorders a chunk. -/
theorem prepare_eq_map (enc : Encoding) (chunks : List String) :
    prepare_chunks_for_embedding enc chunks = chunks.map (validatedChunk enc) := by
  unfold prepare_chunks_for_embedding
  simpa using prepare_foldl_eq enc chunks []

/-- Exceptions of the embedded fragment.  `apiError` stands for the
(opaque) OpenAI error re-raised by `_create_embeddings_with_retry` after
its retries are exhausted (`reraise=True`); `nameError n` is the Python
`NameError` raised when the name `n` is unbound at a `raise` site;
`httpException` is `fastapi.HTTPException`. -/
inductive PyError
  | apiError
  | nameError (missing : String)
  | valueError
  | indexError
  | httpException (status : Nat) (detail : String)
  deriving DecidableEq, Repr

/-- An embedding vector (`List[float]`, modelled over `ℚ`). -/
abbrev Vec := List ℚ

/-- The batching `for i in range(0, len(validated_chunks), batch_size)`
loop of `generate_embeddings` (`embeddings.py` lines 238-258): each step
embeds `v[:batch_size]` and recurses on `v[batch_size:]`, appending the
returned vectors in order.  `apiCall` is the outcome of
`_create_embeddings_with_retry` on one batch.  One fuel unit is spent
per batch; `fuel = length v` always suffices when `batch_size ≥ 1`, and
the `valueError` on exhausted fuel mirrors the `ValueError` Python
raises for a zero `range` step. -/
def batchLoop (apiCall : List String → Except PyError (List Vec)) (batch_size : Nat) :
    Nat → List String → Except PyError (List Vec)
  | _, [] => .ok []
  | 0, _ :: _ => .error .valueError
  | fuel + 1, c :: rest =>
    match apiCall ((c :: rest).take batch_size) with
    | .error e => .error e
    | .ok embs =>
      match batchLoop apiCall batch_size fuel ((c :: rest).drop batch_size) with
      | .error e => .error e
      | .ok more => .ok (embs ++ more)

/-- `generate_embeddings` (`embeddings.py` lines 186-267).  The empty
input returns `[]`; a single validated chunk takes the direct fast path
whose API errors propagate raw (the call at lines 226-231 is outside any
`try`); the multi-chunk path runs the batch loop inside
`try ... except Exception`, whose handler executes
`raise HTTPException(status_code=500, detail="Failed to generate embeddings")` —
but `HTTPException` is never imported in `embeddings.py`, so the handler
itself raises `NameError("name HTTPException is not defined")`, which is
what the model returns for that branch. -/
def generate_embeddings (enc : Encoding) (apiCall : List String → Except PyError (List Vec))
    (chunks : List String) (batch_size : Nat) : Except PyError (List Vec) :=
  if chunks.isEmpty then .ok []
  else
    let validated := prepare_chunks_for_embedding enc chunks
    if validated.length = 1 then
      match apiCall validated with
      | .error e => .error e
      | .ok resp =>
        match resp.head? with
        | none => .error .indexError
        | some v0 => .ok [v0]
    else
      match batchLoop apiCall batch_size validated.length validated with
      | .error _ => .error (.nameError "HTTPException")
      | .ok out => .ok out

/-- With a well-behaved embedding service (`apiCall` returns one vector
per batch item, in order) the batch loop embeds every chunk in order. -/
theorem batchLoop_map (em : String → Vec) (batch_size : Nat) (hbs : 1 ≤ batch_size) :
    ∀ (fuel : Nat) (v : List String), v.length ≤ fuel →
      batchLoop (fun b => .ok (b.map em)) batch_size fuel v = .ok (v.map em) := by
  intro fuel
  induction fuel with
  | zero =>
    intro v hv
    have : v = [] := List.length_eq_zero.mp (Nat.le_zero.mp hv)
    subst this
    rfl
  | succ n ih =>
    intro v hv
    match v with
    | [] => rfl
    | c :: rest =>
      have hdrop : ((c :: rest).drop batch_size).length ≤ n := by
        rw [List.length_drop]
        have : (c :: rest).length ≤ n + 1 := hv
        omega
      simp only [batchLoop, ih _ hdrop]
      rw [← List.map_append, List.take_append_drop]

/-- Python `str.strip()` with no argument (strip ASCII whitespace from
both ends), as used by `process_document` on the decoded content. -/
def isPySpace (c : Char) : Bool :=
  c == ' ' || c == '\t' || c == '\n' || c == '\r' || c == '\x0b' || c == '\x0c'

/-- `text_content.strip()` of `embeddings.py` line 304. -/
def pyStrip (s : String) : String :=
  String.mk (((s.data.dropWhile isPySpace).reverse.dropWhile isPySpace).reverse)

/-- `process_document` (`embeddings.py` lines 269-325), string-content
path: the blank-content short circuit
(`if not text_content or len(text_content.strip()) == 0`), then
`chunk_text` followed by `generate_embeddings`.  The outer `Option` is
inherited from the chunk loop (`none` = divergence); `Except` carries
the Python exceptions of the embedding stage. -/
def process_document (enc : Encoding) (apiCall : List String → Except PyError (List Vec))
    (content : String) (chunk_size overlap batch_size : Nat) :
    Option (Except PyError (List String × List Vec × ChunkStats)) :=
  if content = "" ∨ pyStrip content = "" then some (.ok ([], [], zeroStats))
  else
    match chunk_text enc content chunk_size overlap with
    | none => none
    | some (chunks, stats) =>
      match generate_embeddings enc apiCall chunks batch_size with
      | .error e => some (.error e)
      | .ok embs => some (.ok (chunks, embs, stats))

/-- C1 (counterexample): on a text of exactly 2500 tokens with
`chunk_size = 1000` and `overlap = 200`, `chunk_text` does NOT return 3
chunks — the window starting at 1600 is truncated to the 900 remaining
tokens inside the main loop and the tail rule then emits a fourth chunk
of the 100 tokens from index 2400. -/
theorem chunk_text_2500_not_three_chunks :
    (chunk_text charEncoding (String.mk (List.replicate 2500 'a')) 1000 200).map
      (fun p => p.2.chunk_count) ≠ some 3 := by
  have htok : (charEncoding.encode (String.mk (List.replicate 2500 'a'))).length = 2500 := by
    show ((List.replicate 2500 'a').map Char.toNat).length = 2500
    rw [List.length_map, List.length_replicate]
  have hne : String.mk (List.replicate 2500 'a') ≠ "" := by
    intro hcontra
    have hdata : List.replicate 2500 'a' = ([] : List Char) := congrArg String.data hcontra
    have hlen := congrArg List.length hdata
    rw [List.length_replicate, List.length_nil] at hlen
    exact absurd hlen (by norm_num)
  unfold chunk_text
  rw [if_neg hne, chunkTokens_len2500 _ htok]
  intro hcontra
  have h3 := Option.some.inj hcontra
  have h4 : (4 : Nat) = 3 := h3
  exact absurd h4 (by norm_num)

/-- C1 (amended): for every non-empty input text of exactly 2500 tokens
with `chunk_size = 1000` and `overlap = 200`, `chunk_text` emits the
windows `[0,1000)`, `[800,1800)`, `[1600,2500)` — the main loop
advancing by `chunk_size - overlap = 800`, with the third window
truncated at the text end — and, because after advancing to 2400 at
most `overlap` tokens remain, exactly one final tail chunk `[2400,2500)`
of exactly the remaining tokens, stopping there: 4 chunks with token
counts `[1000, 1000, 900, 100]`, not 3 chunks of `[1000, 1000, 500]`. -/
theorem chunk_text_2500_token_scenario (enc : Encoding) (text : String)
    (hne : text ≠ "") (h : (enc.encode text).length = 2500) :
    chunkTokens 1000 200 (enc.encode text) =
      some [(enc.encode text).take 1000, ((enc.encode text).drop 800).take 1000,
        ((enc.encode text).drop 1600).take 900, (enc.encode text).drop 2400]
    ∧ (chunkTokens 1000 200 (enc.encode text)).map (fun slices => slices.map List.length) =
      some [1000, 1000, 900, 100]
    ∧ (chunk_text enc text 1000 200).map (fun p => p.2.chunk_count) = some 4 := by
  have e := chunkTokens_len2500 (enc.encode text) h
  refine ⟨e, ?_, ?_⟩
  · have hmap : ([(enc.encode text).take 1000, ((enc.encode text).drop 800).take 1000,
        ((enc.encode text).drop 1600).take 900, (enc.encode text).drop 2400]).map
        List.length = [1000, 1000, 900, 100] := by
      simp only [List.map_cons, List.map_nil, List.length_take, List.length_drop, h]
      norm_num
    rw [e, Option.map_some', hmap]
  · unfold chunk_text
    rw [if_neg hne, e]
    rfl

/-- Witness for `chunk_text_2500_token_scenario` at a concrete 2500
character text under the one-token-per-character encoding. -/
theorem chunk_text_2500_token_scenario_witness :
    (charEncoding.encode (String.mk (List.replicate 2500 'a'))).length = 2500 ∧
    (chunk_text charEncoding (String.mk (List.replicate 2500 'a')) 1000 200).map
      (fun p => p.2.chunk_count) = some 4 := by
  have htok : (charEncoding.encode (String.mk (List.replicate 2500 'a'))).length = 2500 := by
    show ((List.replicate 2500 'a').map Char.toNat).length = 2500
    rw [List.length_map, List.length_replicate]
  have hne : String.mk (List.replicate 2500 'a') ≠ "" := by
    intro hcontra
    have hdata : List.replicate 2500 'a' = ([] : List Char) := congrArg String.data hcontra
    have hlen := congrArg List.length hdata
    rw [List.length_replicate, List.length_nil] at hlen
    exact absurd hlen (by norm_num)
  exact ⟨htok,
    (chunk_text_2500_token_scenario charEncoding _ hne htok).2.2⟩

/-- C2: with `chunk_size = 2` and `overlap = 2` on a 3-token text the
stride `chunk_size - overlap` is 0 and the tail condition
`total_tokens - overlap ≤ i` never fires at `i = 0`, so the `while` loop
of `chunk_text` never terminates: the loop body maps state `i = 0` to
state `i = 0` for every amount of fuel, and `chunk_text` exhausts any
fuel bound.  The code contains no degrade-to-stride-1 guard. -/
theorem chunk_text_overlap_eq_size_diverges :
    (∀ (fuel : Nat) (acc : List (List Nat)),
      chunkLoop 2 2 (charEncoding.encode "abc") fuel 0 acc = none)
    ∧ chunk_text charEncoding "abc" 2 2 = none := by
  have henc : charEncoding.encode "abc" = [97, 98, 99] := rfl
  have key : ∀ (fuel : Nat) (acc : List (List Nat)),
      chunkLoop 2 2 [97, 98, 99] fuel 0 acc = none := by
    intro fuel
    induction fuel with
    | zero => intro acc; rfl
    | succ n ih =>
      intro acc
      rw [chunkLoop_succ]
      norm_num
      exact ih _
  constructor
  · intro fuel acc
    rw [henc]
    exact key fuel acc
  · unfold chunk_text
    rw [if_neg (by decide), henc]
    unfold chunkTokens
    rw [key]

/-- C3 (counterexample): `chunk_text` only special-cases the empty
string (`if not text`); the whitespace-only input `" "` is tokenized and
chunked, yielding one chunk and non-zero stats rather than the empty
result. -/
theorem chunk_text_whitespace_not_empty :
    (chunk_text charEncoding " " 1000 200).map (fun p => p.2.chunk_count) = some 1 ∧
    chunk_text charEncoding " " 1000 200 ≠ some ([], zeroStats) := by
  constructor
  · rfl
  · intro h
    have hcc := congrArg (fun p : List String × ChunkStats => p.2.chunk_count)
      (Option.some.inj h)
    have hone : (1 : Nat) = 0 := hcc
    exact absurd hone (by norm_num)

/-- C3 (amended): `chunk_text` returns the empty chunk list with the
zero-valued stats dict for the EMPTY string; for whitespace-only content
the empty result is produced one level up, by `process_document`, whose
blank-content short circuit returns `([], [], zero stats)` before any
chunking or embedding. -/
theorem chunk_text_empty_process_document_blank (enc : Encoding)
    (apiCall : List String → Except PyError (List Vec))
    (content : String) (chunk_size overlap batch_size : Nat) :
    chunk_text enc "" chunk_size overlap = some ([], zeroStats)
    ∧ (pyStrip content = "" →
        process_document enc apiCall content chunk_size overlap batch_size =
          some (.ok ([], [], zeroStats))) := by
  constructor
  · rfl
  · intro h
    unfold process_document
    rw [if_pos (Or.inr h)]

/-- Witness for `chunk_text_empty_process_document_blank` at the
whitespace-only content `" "`. -/
theorem chunk_text_empty_process_document_blank_witness :
    chunk_text charEncoding "" 1000 200 = some ([], zeroStats)
    ∧ process_document charEncoding (fun _ => .error .apiError) " " 1000 200 5 =
        some (.ok ([], [], zeroStats)) := by
  have h := chunk_text_empty_process_document_blank charEncoding
    (fun _ => .error .apiError) " " 1000 200 5
  exact ⟨h.1, h.2 (by decide)⟩

/-- With a well-behaved embedding service the whole of
`generate_embeddings` maps every validated chunk to its vector in input
order (fast path, empty path and batched path alike). -/
theorem generate_embeddings_map (enc : Encoding) (em : String → Vec)
    (chunks : List String) (batch_size : Nat) (hbs : 1 ≤ batch_size) :
    generate_embeddings enc (fun b => .ok (b.map em)) chunks batch_size =
      .ok ((chunks.map (validatedChunk enc)).map em) := by
  unfold generate_embeddings
  rw [prepare_eq_map]
  by_cases hc : chunks.isEmpty
  · rw [if_pos hc]
    have hnil : chunks = [] := List.isEmpty_iff.mp hc
    subst hnil
    rfl
  · rw [if_neg hc]
    by_cases h1 : (chunks.map (validatedChunk enc)).length = 1
    · rw [if_pos h1]
      obtain ⟨x, hx⟩ := List.length_eq_one.mp h1
      rw [hx]
      rfl
    · rw [if_neg h1]
      rw [batchLoop_map em batch_size hbs _ _ (le_refl _)]

/-- C5: when every per-batch API call succeeds and returns one vector
per item in order, `generate_embeddings` returns exactly one vector per
input chunk, index-aligned: the `i`-th output is the embedding of the
validated form of the `i`-th input chunk, and when every chunk is within
the token limit it is the embedding of the `i`-th input chunk itself.
Batching (including the single-chunk fast path and the empty input)
never reorders or drops items. -/
theorem generate_embeddings_order_preserving (enc : Encoding) (em : String → Vec)
    (chunks : List String) (batch_size : Nat) (hbs : 1 ≤ batch_size) :
    generate_embeddings enc (fun b => .ok (b.map em)) chunks batch_size =
      .ok (chunks.map (fun c => em (validatedChunk enc c)))
    ∧ (chunks.map (fun c => em (validatedChunk enc c))).length = chunks.length
    ∧ ((∀ c ∈ chunks, (enc.encode c).length ≤ MAX_TOKENS_PER_CHUNK) →
        generate_embeddings enc (fun b => .ok (b.map em)) chunks batch_size =
          .ok (chunks.map em)) := by
  have hmain := generate_embeddings_map enc em chunks batch_size hbs
  rw [List.map_map] at hmain
  refine ⟨hmain, List.length_map _ _, fun hall => ?_⟩
  rw [hmain]
  congr 1
  apply List.map_congr_left
  intro c hc
  have := hall c hc
  simp only [Function.comp, validatedChunk, if_pos this]

/-- Witness for `generate_embeddings_order_preserving` on two short
chunks with batch size 2. -/
theorem generate_embeddings_order_preserving_witness :
    generate_embeddings charEncoding
      (fun b => .ok (b.map (fun s => [(s.length : ℚ)]))) ["ab", "c"] 2 =
      .ok [[(2 : ℚ)], [(1 : ℚ)]] := by
  have h := generate_embeddings_order_preserving charEncoding
    (fun s => [(s.length : ℚ)]) ["ab", "c"] 2 (by norm_num)
  have h2 := h.2.2 (by intro c hc; fin_cases hc <;> decide)
  rw [h2]
  rfl

/-- C4: when the embedding service fails (retries exhausted) the
multi-chunk path of `generate_embeddings` raises
`NameError("name HTTPException is not defined")` — the intended
`HTTPException(500, "Failed to generate embeddings")` is unreachable
because `HTTPException` is never imported in `embeddings.py` — and the
single-chunk fast path propagates the raw API error with no wrapping at
all. -/
theorem generate_embeddings_failure_not_http500 :
    generate_embeddings charEncoding (fun _ => .error .apiError) ["a", "b"] 5 =
      .error (.nameError "HTTPException")
    ∧ generate_embeddings charEncoding (fun _ => .error .apiError) ["a"] 5 =
      .error .apiError
    ∧ generate_embeddings charEncoding (fun _ => .error .apiError) ["a", "b"] 5 ≠
      .error (.httpException 500 "Failed to generate embeddings") := by
  refine ⟨rfl, rfl, ?_⟩
  intro h
  exact PyError.noConfusion (Except.error.inj h)

/-- A row of the `document_embeddings` table (`db.py`).  `embedding`
models the stored vector after the str-vs-list parse of
`query.py` lines 124-131: `some v` for a value that decodes to the
numeric vector `v` (either storage format), `none` for a malformed value
whose parse raises and is skipped (`query.py` lines 143-145).
`created_at` and other columns not read by the embedded handlers are
omitted; the DB-assigned `id` is carried as plain data. -/
structure DocumentEmbedding where
  id : Nat
  filename : String
  chunk_id : Nat
  chunk_text : String
  embedding : Option Vec
  deriving DecidableEq, Repr

/-- `SearchResult` (`schemas.py`). -/
structure SearchResult where
  id : Nat
  filename : String
  chunk_id : Nat
  chunk_text : String
  score : ℚ
  deriving DecidableEq, Repr

/-- Outcome of one request to the query endpoint: a JSON body (HTTP 200)
or an `HTTPException` with its status and detail. -/
inductive QueryOutcome
  | ok (answer : String) (chunks : List SearchResult)
  | httpError (status : Nat) (detail : String)
  deriving DecidableEq, Repr

/-- The dimension-mismatch answer of `query.py` line 168. -/
def dimensionMismatchMessage : String :=
  "I couldn\x27t generate an answer based on the selected documents. There appears to be an embedding dimension mismatch between your query and the documents."

/-- The LLM-failure fallback answer of `query.py` line 217. -/
def fallbackAnswer : String :=
  "I found relevant information but couldn\x27t generate a complete answer. Try asking a more specific question."

/-- Detail of the 500 produced when the outer
`except Exception` of `_process_query` (line 229) catches the
`HTTPException(404, "No document embeddings found with the given criteria")`
raised at lines 93 and 173: `str()` of a starlette `HTTPException` is
`"{status_code}: {detail}"`, interpolated into
`f"Search + answer failed: {str(e)}"`. -/
def noDocsDetail : String :=
  "Search + answer failed: 404: No document embeddings found with the given criteria"

/-- Detail of the 500 produced when the query-embedding step fails
(`query.py` lines 72-75 re-raise, caught by the outer handler). -/
def queryEmbedFailDetail : String :=
  "Search + answer failed: Failed to generate query embedding"

/-- The first-pass candidate loop of `_process_query`
(`query.py` lines 117-145): walk the fetched rows, stop once `cap`
(`max_valid_docs`) compatible candidates are collected, skip a
dimension-mismatched vector counting it in `skipped_count`, and skip a
malformed vector silently. -/
def collectValid (queryDim cap : Nat) :
    List DocumentEmbedding → List (Vec × DocumentEmbedding) → Nat →
    List (Vec × DocumentEmbedding) × Nat
  | [], acc, skipped => (acc, skipped)
  | d :: rest, acc, skipped =>
    if cap ≤ acc.length then (acc, skipped)
    else
      match d.embedding with
      | none => collectValid queryDim cap rest acc skipped
      | some v =>
        if v.length ≠ queryDim then collectValid queryDim cap rest acc (skipped + 1)
        else collectValid queryDim cap rest (acc ++ [(v, d)]) skipped

/-- Step 3 of `_process_query` (lines 101-160): collect compatible
candidates (capped at `min(k * 5, 100)`), then score each one against
the query vector in one batch (`sklearn_cosine_similarity`, modelled by
the abstract `sim` parameter), keeping `(score, doc)` pairs aligned with
the collection order as the `zip` on line 159 does. -/
def candidateResults (sim : Vec → Vec → ℚ) (qv : Vec) (k : Nat)
    (docs : List DocumentEmbedding) : List (ℚ × DocumentEmbedding) × Nat :=
  ((collectValid qv.length (min (k * 5) 100) docs [] 0).1.map
      (fun p => (sim qv p.1, p.2)),
    (collectValid qv.length (min (k * 5) 100) docs [] 0).2)

/-- `round(score, 4)` of `query.py` line 187, over `ℚ` (round half up at
the fourth decimal; Python floats round half to even, a difference that
never matters off the half-way ties). -/
def round4 (x : ℚ) : ℚ := ((round (x * 10000) : ℤ) : ℚ) / 10000

/-- The ordering used by `results.sort(key=lambda x: x[0], reverse=True)`
(`query.py` line 176): descending by score.  Python `list.sort` is
stable, so the sort it performs is the stable descending sort, which is
exactly `List.insertionSort scoreDesc` (any two stable sorts for the
same total preorder agree). -/
def scoreDesc : ℚ × DocumentEmbedding → ℚ × DocumentEmbedding → Prop :=
  fun a b => b.1 ≤ a.1

instance : DecidableRel scoreDesc :=
  fun a b => inferInstanceAs (Decidable (b.1 ≤ a.1))

instance : IsTotal (ℚ × DocumentEmbedding) scoreDesc :=
  ⟨fun a b => le_total b.1 a.1⟩

instance : IsTrans (ℚ × DocumentEmbedding) scoreDesc :=
  ⟨fun _ _ _ h1 h2 => le_trans h2 h1⟩

/-- Step 5 of `_process_query` (lines 181-190): build one `SearchResult`
per kept pair, with the score rounded to 4 decimal places. -/
def toSearchResult (p : ℚ × DocumentEmbedding) : SearchResult :=
  ⟨p.2.id, p.2.filename, p.2.chunk_id, p.2.chunk_text, round4 p.1⟩

/-- The prompt of `query.py` line 194. -/
def buildPrompt (q context : String) : String :=
  "Answer the following question based on the context below:\n\nContext:\n" ++ context ++
    "\n\nQuestion:\n" ++ q

/-- Steps 2-7 of `_process_query` (`query.py` lines 77-232) given the
query vector: the empty fetch raises the 404 of line 93, which the outer
`except Exception` (line 229) — it has no `except HTTPException` guard
and `HTTPException` subclasses `Exception` — converts into a 500 with
`noDocsDetail`; likewise for the 404 of line 173 when no candidate was
compatible and none was dimension-mismatched.  Otherwise: stable
descending sort, take `k`, build `SearchResult`s, and answer via the LLM
(`llm` returns `none` on an API failure, in which case the fallback
string of line 217 is used).  The model fixes `include_chunks = True`
(the default) and receives `docs` as the rows fetched by step 2. -/
def retrievalStage (sim : Vec → Vec → ℚ) (llm : String → Option String)
    (q : String) (k : Nat) (docs : List DocumentEmbedding) (qv : Vec) : QueryOutcome :=
  if docs.isEmpty then .httpError 500 noDocsDetail
  else
    if ((candidateResults sim qv k docs).1).isEmpty then
      if 0 < (candidateResults sim qv k docs).2 then .ok dimensionMismatchMessage []
      else .httpError 500 noDocsDetail
    else
      .ok
        (match llm (buildPrompt q (String.intercalate "\n\n"
            (((List.insertionSort scoreDesc (candidateResults sim qv k docs).1).take k).map
              (fun p => p.2.chunk_text)))) with
          | some a => a
          | none => fallbackAnswer)
        (((List.insertionSort scoreDesc (candidateResults sim qv k docs).1).take k).map
          toSearchResult)

/-- `_process_query` (`query.py` lines 53-232): step 1 embeds the query
through `prepare_chunks_for_embedding([q])` + `generate_embeddings`
(batch size `min(settings.EMBEDDING_BATCH_SIZE, 5) = 5`; irrelevant on
the single-chunk fast path), any failure there being wrapped into the
outer 500; then the retrieval stage above runs on `query_embedding[0]`. -/
def processQuery (enc : Encoding) (apiCall : List String → Except PyError (List Vec))
    (sim : Vec → Vec → ℚ) (llm : String → Option String)
    (q : String) (k : Nat) (docs : List DocumentEmbedding) : QueryOutcome :=
  match generate_embeddings enc apiCall (prepare_chunks_for_embedding enc [q]) 5 with
  | .error _ => .httpError 500 queryEmbedFailDetail
  | .ok qEmbed =>
    match qEmbed.head? with
    | none => .httpError 500 queryEmbedFailDetail
    | some qv => retrievalStage sim llm q k docs qv

/-- When every fetched row carries a decodable vector of the wrong
dimension, the candidate loop collects nothing and counts every row as
skipped. -/
theorem collectValid_all_mismatch (qd cap : Nat) (hcap : 0 < cap) :
    ∀ (docs : List DocumentEmbedding) (skipped : Nat),
      (∀ d ∈ docs, ∃ v, d.embedding = some v ∧ v.length ≠ qd) →
      collectValid qd cap docs [] skipped = ([], skipped + docs.length) := by
  intro docs
  induction docs with
  | nil => intro skipped _; rfl
  | cons d rest ih =>
    intro skipped h
    obtain ⟨v, hv, hvd⟩ := h d (List.mem_cons_self d rest)
    show (if cap ≤ ([] : List (Vec × DocumentEmbedding)).length then _ else _) = _
    rw [if_neg (by simp; omega)]
    rw [hv]
    show (if v.length ≠ qd then _ else _) = _
    rw [if_pos hvd]
    rw [ih (skipped + 1) (fun d2 hd2 => h d2 (List.mem_cons_of_mem d hd2))]
    rw [List.length_cons]
    congr 1
    omega

/-- C6: the two zero-compatible-candidate outcomes.  When rows exist but
every one is dimension-mismatched, the endpoint returns the HTTP-200
body with the dimension-mismatch answer and an empty chunk list, as the
claim says.  When there are no rows at all, however, the
`HTTPException(404, ...)` raised at `query.py` line 93 is caught by the
outer `except Exception` handler of line 229 (there is no
`except HTTPException: raise` guard at that level, unlike the inner one
at lines 94-96) and re-surfaced as a 500 whose detail merely embeds the
404 message — the caller sees HTTP 500, not the intended 404. -/
theorem retrieval_zero_compatible_outcomes (sim : Vec → Vec → ℚ)
    (llm : String → Option String) (q : String) (k : Nat) (qv : Vec)
    (docs : List DocumentEmbedding) (hk : 1 ≤ k) (hne : docs ≠ [])
    (hmm : ∀ d ∈ docs, ∃ v, d.embedding = some v ∧ v.length ≠ qv.length) :
    retrievalStage sim llm q k docs qv = .ok dimensionMismatchMessage []
    ∧ retrievalStage sim llm q k [] qv = .httpError 500 noDocsDetail
    ∧ retrievalStage sim llm q k [] qv ≠ .httpError 404 "No document embeddings found with the given criteria" := by
  have hcap : 0 < min (k * 5) 100 := by
    have : 1 * 5 ≤ k * 5 := Nat.mul_le_mul_right 5 hk
    omega
  have hcoll := collectValid_all_mismatch qv.length (min (k * 5) 100) hcap docs 0 hmm
  refine ⟨?_, rfl, ?_⟩
  · unfold retrievalStage
    rw [if_neg (by simpa using hne)]
    unfold candidateResults
    rw [hcoll]
    rw [if_pos (by simp)]
    rw [if_pos (by simpa using List.length_pos_of_ne_nil hne)]
  · intro h
    have h500 := QueryOutcome.httpError.inj h
    exact absurd h500.1 (by norm_num)

/-- Witness for `retrieval_zero_compatible_outcomes`: one stored row of
dimension 2 against a query vector of dimension 1, and the empty fetch. -/
theorem retrieval_zero_compatible_outcomes_witness :
    retrievalStage (fun _ _ => (0 : ℚ)) (fun _ => none) "q" 5
        [⟨1, "f", 0, "t", some [1, 2]⟩] [1] = .ok dimensionMismatchMessage []
    ∧ retrievalStage (fun _ _ => (0 : ℚ)) (fun _ => none) "q" 5 [] [1] =
        .httpError 500 noDocsDetail := by
  have h := retrieval_zero_compatible_outcomes (fun _ _ => (0 : ℚ)) (fun _ => none)
    "q" 5 [(1 : ℚ)] [⟨1, "f", 0, "t", some [1, 2]⟩] (by norm_num) (by decide)
    (by
      intro d hd
      fin_cases hd
      exact ⟨[1, 2], rfl, by decide⟩)
  exact ⟨h.1, h.2.1⟩

/-- The decoded vector of a compatible row. -/
def embOf (d : DocumentEmbedding) : Vec := d.embedding.getD []

/-- The `(score, doc)` pairs `_process_query` builds when every fetched
row is compatible: the first `min(k * 5, 100)` rows in fetch order, each
paired with its batch-computed score. -/
def scoredCandidates (sim : Vec → Vec → ℚ) (qv : Vec) (k : Nat)
    (docs : List DocumentEmbedding) : List (ℚ × DocumentEmbedding) :=
  (docs.take (min (k * 5) 100)).map (fun d => (sim qv (embOf d), d))

/-- When every fetched row is compatible, the candidate loop collects
exactly the first `cap` rows, in order, skipping none. -/
theorem collectValid_all_valid (qd cap : Nat) :
    ∀ (docs : List DocumentEmbedding) (acc : List (Vec × DocumentEmbedding)) (skipped : Nat),
      (∀ d ∈ docs, ∃ v, d.embedding = some v ∧ v.length = qd) →
      collectValid qd cap docs acc skipped =
        (acc ++ (docs.take (cap - acc.length)).map (fun d => (embOf d, d)), skipped) := by
  intro docs
  induction docs with
  | nil => intro acc skipped _; simp [collectValid]
  | cons d rest ih =>
    intro acc skipped h
    obtain ⟨v, hv, hvd⟩ := h d (List.mem_cons_self d rest)
    by_cases hfull : cap ≤ acc.length
    · show (if cap ≤ acc.length then _ else _) = _
      rw [if_pos hfull, Nat.sub_eq_zero_of_le hfull]
      simp
    · show (if cap ≤ acc.length then _ else _) = _
      rw [if_neg hfull, hv]
      show (if v.length ≠ qd then _ else _) = _
      rw [if_neg (fun hq => hq hvd)]
      rw [ih (acc ++ [(v, d)]) skipped (fun d2 hd2 => h d2 (List.mem_cons_of_mem d hd2))]
      obtain ⟨m, hm⟩ : ∃ m, cap - acc.length = m + 1 :=
        ⟨cap - acc.length - 1, by omega⟩
      have hlen : (acc ++ [(v, d)]).length = acc.length + 1 := by simp
      have hm2 : cap - (acc.length + 1) = m := by omega
      have hemb : embOf d = v := by rw [embOf, hv]; rfl
      rw [hlen, hm2, hm, List.take_succ_cons, List.map_cons, hemb]
      simp

/-- Inserting an element whose score equals `s` into a list puts it
before every later element of score `s` (the insertion point stops only
at strictly smaller scores), so filtering at score `s` sees it first. -/
theorem filter_orderedInsert_eq (s : ℚ) (a : ℚ × DocumentEmbedding) (ha : a.1 = s) :
    ∀ l : List (ℚ × DocumentEmbedding),
      (List.orderedInsert scoreDesc a l).filter (fun p => decide (p.1 = s)) =
        a :: l.filter (fun p => decide (p.1 = s)) := by
  intro l
  induction l with
  | nil => simp [List.orderedInsert, ha]
  | cons b l ih =>
    by_cases hab : scoreDesc a b
    · rw [List.orderedInsert, if_pos hab]
      simp [List.filter_cons, ha]
    · rw [List.orderedInsert, if_neg hab]
      have hbs : ¬ (b.1 = s) := by
        intro hb
        exact hab (le_of_eq (hb.trans ha.symm))
      simp [List.filter_cons, hbs, ih]

/-- Inserting an element of a different score never changes the filter
at score `s`. -/
theorem filter_orderedInsert_ne (s : ℚ) (a : ℚ × DocumentEmbedding) (ha : ¬ a.1 = s) :
    ∀ l : List (ℚ × DocumentEmbedding),
      (List.orderedInsert scoreDesc a l).filter (fun p => decide (p.1 = s)) =
        l.filter (fun p => decide (p.1 = s)) := by
  intro l
  induction l with
  | nil => simp [List.orderedInsert, ha]
  | cons b l ih =>
    by_cases hab : scoreDesc a b
    · rw [List.orderedInsert, if_pos hab]
      simp [List.filter_cons, ha]
    · rw [List.orderedInsert, if_neg hab]
      simp [List.filter_cons, ih]

/-- Stability of the modelled sort: for every score value, the
equal-score candidates appear in the sorted list in exactly their
original order (Python `list.sort` is stable and `reverse=True`
preserves stability). -/
theorem insertionSort_stable (s : ℚ) :
    ∀ l : List (ℚ × DocumentEmbedding),
      (List.insertionSort scoreDesc l).filter (fun p => decide (p.1 = s)) =
        l.filter (fun p => decide (p.1 = s)) := by
  intro l
  induction l with
  | nil => rfl
  | cons a l ih =>
    rw [List.insertionSort]
    by_cases ha : a.1 = s
    · rw [filter_orderedInsert_eq s a ha, ih]
      simp [List.filter_cons, ha]
    · rw [filter_orderedInsert_ne s a ha, ih]
      simp [List.filter_cons, ha]

/-- `round(·, 4)` is monotone, so rounding the scores preserves the
descending order of the sorted results. -/
theorem round4_mono {a b : ℚ} (h : a ≤ b) : round4 a ≤ round4 b := by
  unfold round4
  have h1 : round (a * 10000) ≤ round (b * 10000) := by
    rw [round_eq, round_eq]
    exact Int.floor_mono (by linarith)
  have h2 : ((round (a * 10000) : ℤ) : ℚ) ≤ ((round (b * 10000) : ℤ) : ℚ) := by
    exact_mod_cast h1
  exact (div_le_div_iff_of_pos_right (by norm_num)).mpr h2

/-- C7: on a fetch where every row is dimension-compatible (and `k ≥ 1`)
the endpoint answers 200 with the first `k` pairs of the stable
descending sort of the scored candidates, each converted to a
`SearchResult` whose score is `round4` of the raw score; the returned
scores are non-increasing, and candidates of equal score are kept in
original fetch order. -/
theorem retrieval_topk_sorted_stable (sim : Vec → Vec → ℚ) (llm : String → Option String)
    (q : String) (k : Nat) (qv : Vec) (docs : List DocumentEmbedding)
    (hk : 1 ≤ k) (hne : docs ≠ [])
    (hcomp : ∀ d ∈ docs, ∃ v, d.embedding = some v ∧ v.length = qv.length) :
    ∃ answer : String,
      retrievalStage sim llm q k docs qv =
        .ok answer
          (((List.insertionSort scoreDesc (scoredCandidates sim qv k docs)).take k).map
            toSearchResult)
      ∧ List.Pairwise (fun a b : ℚ => b ≤ a)
          ((((List.insertionSort scoreDesc (scoredCandidates sim qv k docs)).take k).map
              toSearchResult).map SearchResult.score)
      ∧ (∀ s : ℚ,
          (List.insertionSort scoreDesc (scoredCandidates sim qv k docs)).filter
              (fun p => decide (p.1 = s)) =
            (scoredCandidates sim qv k docs).filter (fun p => decide (p.1 = s))) := by
  have hcand : candidateResults sim qv k docs = (scoredCandidates sim qv k docs, 0) := by
    unfold candidateResults scoredCandidates
    rw [collectValid_all_valid qv.length (min (k * 5) 100) docs [] 0 hcomp]
    simp [List.map_map]
    rfl
  have hne2 : ¬ ((scoredCandidates sim qv k docs).isEmpty = true) := by
    unfold scoredCandidates
    have hcap : 0 < min (k * 5) 100 := by
      have : 1 * 5 ≤ k * 5 := Nat.mul_le_mul_right 5 hk
      omega
    intro hcontra
    rw [List.isEmpty_iff, List.map_eq_nil_iff, List.take_eq_nil_iff] at hcontra
    rcases hcontra with hcontra | hcontra
    · omega
    · exact hne hcontra
  refine ⟨(match llm (buildPrompt q (String.intercalate "\n\n"
      (((List.insertionSort scoreDesc (scoredCandidates sim qv k docs)).take k).map
        (fun p => p.2.chunk_text)))) with
    | some a => a
    | none => fallbackAnswer), ?_, ?_, ?_⟩
  · unfold retrievalStage
    rw [if_neg (by simpa using hne), hcand]
    dsimp only
    rw [if_neg hne2]
  · have hs : List.Sorted scoreDesc
        (List.insertionSort scoreDesc (scoredCandidates sim qv k docs)) :=
      List.sorted_insertionSort scoreDesc (scoredCandidates sim qv k docs)
    have hs2 : List.Pairwise scoreDesc
        ((List.insertionSort scoreDesc (scoredCandidates sim qv k docs)).take k) :=
      List.Pairwise.sublist (List.take_sublist k _) hs
    rw [List.map_map]
    exact hs2.map _ (fun a b hab => round4_mono hab)
  · intro s
    exact insertionSort_stable s (scoredCandidates sim qv k docs)

/-- The five candidates of the end-to-end retrieval scenario, with
scores `[0.9, 0.5, 0.8, 0.95, 0.3]` under the head-projection scoring
function. -/
def scenarioDocs : List DocumentEmbedding :=
  [⟨1, "f", 0, "t0", some [0.9]⟩, ⟨2, "f", 1, "t1", some [0.5]⟩,
   ⟨3, "f", 2, "t2", some [0.8]⟩, ⟨4, "f", 3, "t3", some [0.95]⟩,
   ⟨5, "f", 4, "t4", some [0.3]⟩]

/-- Witness for `retrieval_topk_sorted_stable`: `k = 2` against five
compatible candidates of scores `[0.9, 0.5, 0.8, 0.95, 0.3]`; the top-2
returned are the `0.95` and `0.9` candidates, in that order. -/
theorem retrieval_topk_sorted_stable_witness :
    (∃ answer : String,
      retrievalStage (fun _ v => v.headD 0) (fun _ => some "ans") "q" 2 scenarioDocs [1] =
        .ok answer
          (((List.insertionSort scoreDesc
              (scoredCandidates (fun _ v => v.headD 0) [1] 2 scenarioDocs)).take 2).map
            toSearchResult)
      ∧ List.Pairwise (fun a b : ℚ => b ≤ a)
          ((((List.insertionSort scoreDesc
              (scoredCandidates (fun _ v => v.headD 0) [1] 2 scenarioDocs)).take 2).map
              toSearchResult).map SearchResult.score)
      ∧ (∀ s : ℚ,
          (List.insertionSort scoreDesc
              (scoredCandidates (fun _ v => v.headD 0) [1] 2 scenarioDocs)).filter
              (fun p => decide (p.1 = s)) =
            (scoredCandidates (fun _ v => v.headD 0) [1] 2 scenarioDocs).filter
              (fun p => decide (p.1 = s))))
    ∧ ((List.insertionSort scoreDesc
          (scoredCandidates (fun _ v => v.headD 0) [1] 2 scenarioDocs)).take 2).map
        toSearchResult =
      [⟨4, "f", 3, "t3", 0.95⟩, ⟨1, "f", 0, "t0", 0.9⟩] := by
  constructor
  · exact retrieval_topk_sorted_stable (fun _ v => v.headD 0) (fun _ => some "ans")
      "q" 2 [1] scenarioDocs (by norm_num) (by decide)
      (by intro d hd; fin_cases hd <;> exact ⟨_, rfl, rfl⟩)
  · have hscored : scoredCandidates (fun _ v => v.headD 0) [1] 2 scenarioDocs =
        [(0.9, ⟨1, "f", 0, "t0", some [0.9]⟩), (0.5, ⟨2, "f", 1, "t1", some [0.5]⟩),
         (0.8, ⟨3, "f", 2, "t2", some [0.8]⟩), (0.95, ⟨4, "f", 3, "t3", some [0.95]⟩),
         (0.3, ⟨5, "f", 4, "t4", some [0.3]⟩)] := by
      unfold scoredCandidates
      rw [List.take_of_length_le (by norm_num [scenarioDocs])]
      simp [scenarioDocs, embOf]
    have hsort : List.insertionSort scoreDesc
        (scoredCandidates (fun _ v => v.headD 0) [1] 2 scenarioDocs) =
        [(0.95, ⟨4, "f", 3, "t3", some [0.95]⟩), (0.9, ⟨1, "f", 0, "t0", some [0.9]⟩),
         (0.8, ⟨3, "f", 2, "t2", some [0.8]⟩), (0.5, ⟨2, "f", 1, "t1", some [0.5]⟩),
         (0.3, ⟨5, "f", 4, "t4", some [0.3]⟩)] := by
      rw [hscored]
      norm_num [List.insertionSort, List.orderedInsert, scoreDesc]
    have htake : ([(0.95, (⟨4, "f", 3, "t3", some [0.95]⟩ : DocumentEmbedding)),
        (0.9, ⟨1, "f", 0, "t0", some [0.9]⟩), (0.8, ⟨3, "f", 2, "t2", some [0.8]⟩),
        (0.5, ⟨2, "f", 1, "t1", some [0.5]⟩), (0.3, ⟨5, "f", 4, "t4", some [0.3]⟩)] :
        List (ℚ × DocumentEmbedding)).take 2 =
        [(0.95, ⟨4, "f", 3, "t3", some [0.95]⟩), (0.9, ⟨1, "f", 0, "t0", some [0.9]⟩)] := rfl
    have hr95 : round4 (0.95 : ℚ) = 0.95 := by
      unfold round4
      rw [show (0.95 : ℚ) * 10000 = 9500 by norm_num, round_ofNat]
      norm_num
    have hr9 : round4 (0.9 : ℚ) = 0.9 := by
      unfold round4
      rw [show (0.9 : ℚ) * 10000 = 9000 by norm_num, round_ofNat]
      norm_num
    rw [hsort, htake]
    simp only [List.map_cons, List.map_nil, toSearchResult]
    rw [hr95, hr9]

/-- C10: step 1 of `_process_query` passes the raw query through
`prepare_chunks_for_embedding([q])`, so a query over the 8191-token
limit is silently truncated to its first `MAX_TOKENS_PER_CHUNK` tokens
and the pipeline proceeds to retrieval with the embedding of the
truncated text, while a query at or under the limit is embedded
unmodified.  The hypothesis `hrt` says re-encoding the truncated text
stays within the limit (true of the source tokenizer, where
decode-then-encode round-trips token prefixes); it makes the second
validation pass inside `generate_embeddings` a no-op just as in the
source. -/
theorem query_truncated_to_token_limit (enc : Encoding) (em : String → Vec)
    (sim : Vec → Vec → ℚ) (llm : String → Option String) (q : String) (k : Nat)
    (docs : List DocumentEmbedding)
    (hrt : (enc.encode (enc.decode ((enc.encode q).take MAX_TOKENS_PER_CHUNK))).length ≤
      MAX_TOKENS_PER_CHUNK) :
    processQuery enc (fun b => .ok (b.map em)) sim llm q k docs =
      retrievalStage sim llm q k docs (em (validatedChunk enc q))
    ∧ ((enc.encode q).length ≤ MAX_TOKENS_PER_CHUNK → validatedChunk enc q = q)
    ∧ (MAX_TOKENS_PER_CHUNK < (enc.encode q).length →
        validatedChunk enc q = enc.decode ((enc.encode q).take MAX_TOKENS_PER_CHUNK)) := by
  have hvv : validatedChunk enc (validatedChunk enc q) = validatedChunk enc q := by
    by_cases hle : (enc.encode q).length ≤ MAX_TOKENS_PER_CHUNK
    · have h1 : validatedChunk enc q = q := by rw [validatedChunk, if_pos hle]
      rw [h1]
      exact h1
    · have h1 : validatedChunk enc q =
          enc.decode ((enc.encode q).take MAX_TOKENS_PER_CHUNK) := by
        rw [validatedChunk, if_neg hle]
      rw [h1, validatedChunk, if_pos hrt]
  refine ⟨?_, fun hle => by rw [validatedChunk, if_pos hle],
    fun hgt => by rw [validatedChunk, if_neg (not_le.mpr hgt)]⟩
  have hv : prepare_chunks_for_embedding enc [q] = [validatedChunk enc q] := by
    rw [prepare_eq_map]
    rfl
  unfold processQuery
  rw [hv]
  have hgen : generate_embeddings enc (fun b => .ok (b.map em)) [validatedChunk enc q] 5 =
      .ok [em (validatedChunk enc q)] := by
    rw [generate_embeddings_map enc em [validatedChunk enc q] 5 (by norm_num)]
    rw [List.map_cons, List.map_nil, List.map_cons, List.map_nil, hvv]
  rw [hgen]
  rfl

/-- A query of 8192 one-token characters: one token over the limit. -/
def bigQuery : String := String.mk (List.replicate 8192 'a')

/-- Witness for `query_truncated_to_token_limit` at a query one token
over the limit. -/
theorem query_truncated_to_token_limit_witness :
    processQuery charEncoding (fun b => .ok (b.map (fun s => [(s.length : ℚ)])))
        (fun _ _ => 0) (fun _ => none) bigQuery 5 [] =
      retrievalStage (fun _ _ => 0) (fun _ => none) bigQuery 5 []
        ((fun s => [(s.length : ℚ)]) (validatedChunk charEncoding bigQuery))
    ∧ MAX_TOKENS_PER_CHUNK < (charEncoding.encode bigQuery).length
    ∧ validatedChunk charEncoding bigQuery =
        charEncoding.decode ((charEncoding.encode bigQuery).take MAX_TOKENS_PER_CHUNK) := by
  have hlen : (charEncoding.encode bigQuery).length = 8192 := by
    show ((List.replicate 8192 'a').map Char.toNat).length = 8192
    rw [List.length_map, List.length_replicate]
  have hrt : (charEncoding.encode (charEncoding.decode
      ((charEncoding.encode bigQuery).take MAX_TOKENS_PER_CHUNK))).length ≤
      MAX_TOKENS_PER_CHUNK := by
    show (((((List.replicate 8192 'a').map Char.toNat).take
      MAX_TOKENS_PER_CHUNK).map Char.ofNat).map Char.toNat).length ≤ MAX_TOKENS_PER_CHUNK
    rw [List.length_map, List.length_map, List.length_take, List.length_map,
      List.length_replicate]
    norm_num [MAX_TOKENS_PER_CHUNK]
  have h := query_truncated_to_token_limit charEncoding (fun s => [(s.length : ℚ)])
    (fun _ _ => 0) (fun _ => none) bigQuery 5 [] hrt
  have hgt : MAX_TOKENS_PER_CHUNK < (charEncoding.encode bigQuery).length := by
    rw [hlen]
    norm_num [MAX_TOKENS_PER_CHUNK]
  exact ⟨h.1, hgt, h.2.2 hgt⟩

/-- Outcome of `delete_document` (`document_select.py` lines 78-129):
204 No Content on success, the 404 of line 99 otherwise (the
`except HTTPException` clause at line 121 re-raises it, so unlike the
query endpoint this 404 does reach the client; its detail string is not
modelled). -/
inductive DeleteOutcome
  | noContent
  | notFound
  deriving DecidableEq, Repr

/-- `delete_document` over the stored corpus: find the chunks whose
`filename` matches (line 94); if there are none, 404 and no mutation;
otherwise delete exactly the matching rows (line 109) and commit. -/
def delete_document (corpus : List DocumentEmbedding) (filename : String) :
    DeleteOutcome × List DocumentEmbedding :=
  if (corpus.filter (fun r => decide (r.filename = filename))).isEmpty then
    (.notFound, corpus)
  else
    (.noContent, corpus.filter (fun r => decide (¬ r.filename = filename)))

/-- C8: deleting `fn` removes every chunk whose filename is `fn` and no
chunk of any other filename (each survivor keeps its exact multiplicity),
and deleting a filename with no stored chunks answers 404 and leaves the
corpus unchanged. -/
theorem delete_document_cascade_frame (corpus : List DocumentEmbedding) (fn : String) :
    (∀ r ∈ (delete_document corpus fn).2, r.filename ≠ fn)
    ∧ (∀ r : DocumentEmbedding, r.filename ≠ fn →
        (delete_document corpus fn).2.count r = corpus.count r)
    ∧ ((∀ r ∈ corpus, r.filename ≠ fn) →
        (delete_document corpus fn).1 = DeleteOutcome.notFound ∧
          (delete_document corpus fn).2 = corpus)
    ∧ ((∃ r ∈ corpus, r.filename = fn) →
        (delete_document corpus fn).1 = DeleteOutcome.noContent) := by
  by_cases hemp : (corpus.filter (fun r => decide (r.filename = fn))).isEmpty = true
  · have hall : ∀ r ∈ corpus, r.filename ≠ fn := by
      rw [List.isEmpty_iff, List.filter_eq_nil_iff] at hemp
      intro r hr
      simpa using hemp r hr
    have hd1 : (delete_document corpus fn).1 = DeleteOutcome.notFound := by
      unfold delete_document
      rw [if_pos hemp]
    have hd2 : (delete_document corpus fn).2 = corpus := by
      unfold delete_document
      rw [if_pos hemp]
    refine ⟨?_, ?_, fun _ => ⟨hd1, hd2⟩, ?_⟩
    · rw [hd2]
      exact hall
    · intro r _
      rw [hd2]
    · rintro ⟨r, hr, hfn⟩
      exact absurd hfn (hall r hr)
  · have hd1 : (delete_document corpus fn).1 = DeleteOutcome.noContent := by
      unfold delete_document
      rw [if_neg hemp]
    have hd2 : (delete_document corpus fn).2 =
        corpus.filter (fun r => decide (¬ r.filename = fn)) := by
      unfold delete_document
      rw [if_neg hemp]
    refine ⟨?_, ?_, ?_, fun _ => hd1⟩
    · rw [hd2]
      intro r hr
      simpa using (List.mem_filter.mp hr).2
    · intro r hrfn
      rw [hd2]
      exact List.count_filter (by simpa using hrfn)
    · intro hnone
      exfalso
      apply hemp
      rw [List.isEmpty_iff, List.filter_eq_nil_iff]
      intro a ha
      simpa using hnone a ha

/-- Witness for `delete_document_cascade_frame` on a two-document
corpus. -/
theorem delete_document_cascade_frame_witness :
    (∀ r ∈ (delete_document [⟨1, "a", 0, "x", none⟩, ⟨2, "b", 0, "y", none⟩] "a").2,
      r.filename ≠ "a")
    ∧ (delete_document [⟨1, "a", 0, "x", none⟩, ⟨2, "b", 0, "y", none⟩] "a").2.count
        ⟨2, "b", 0, "y", none⟩ =
        ([⟨1, "a", 0, "x", none⟩, ⟨2, "b", 0, "y", none⟩] :
          List DocumentEmbedding).count ⟨2, "b", 0, "y", none⟩
    ∧ ((delete_document [⟨1, "a", 0, "x", none⟩, ⟨2, "b", 0, "y", none⟩] "nope").1 =
          DeleteOutcome.notFound ∧
        (delete_document [⟨1, "a", 0, "x", none⟩, ⟨2, "b", 0, "y", none⟩] "nope").2 =
          [⟨1, "a", 0, "x", none⟩, ⟨2, "b", 0, "y", none⟩])
    ∧ (delete_document [⟨1, "a", 0, "x", none⟩, ⟨2, "b", 0, "y", none⟩] "a").1 =
        DeleteOutcome.noContent := by
  have h1 := delete_document_cascade_frame
    [⟨1, "a", 0, "x", none⟩, ⟨2, "b", 0, "y", none⟩] "a"
  have h2 := delete_document_cascade_frame
    [⟨1, "a", 0, "x", none⟩, ⟨2, "b", 0, "y", none⟩] "nope"
  refine ⟨h1.1, h1.2.1 ⟨2, "b", 0, "y", none⟩ (by decide), h2.2.2.1 (by decide), ?_⟩
  exact h1.2.2.2 ⟨⟨1, "a", 0, "x", none⟩, by decide, rfl⟩

/-- The DB-insertion loop of `upload_document` (`ingestion.py` lines
100-121): `for idx, (chunk, embed) in enumerate(zip(chunks, embeddings))`
adds a `DocumentEmbedding(filename, chunk_id=idx, chunk_text=chunk,
embedding=embed)` per pair, in order.  The DB-assigned `id` plays no
role here and is modelled as 0. -/
def insertLoop (fn : String) : Nat → List (String × Vec) → List DocumentEmbedding
  | _, [] => []
  | idx, (c, e) :: rest => ⟨0, fn, idx, c, some e⟩ :: insertLoop fn (idx + 1) rest

/-- The whole-corpus effect of a successful `upload_document`: the new
rows are appended to the store.  Note the handler never deletes or
checks existing rows for the same filename first. -/
def upload_document_insert (corpus : List DocumentEmbedding) (fn : String)
    (chunks : List String) (embs : List Vec) : List DocumentEmbedding :=
  corpus ++ insertLoop fn 0 (chunks.zip embs)

/-- A store-mutating request: a document upload or a document delete. -/
inductive StoreOp
  | upload (fn : String) (chunks : List String) (embs : List Vec)
  | delete (fn : String)

/-- Effect of one request on the stored corpus. -/
def applyOp (corpus : List DocumentEmbedding) : StoreOp → List DocumentEmbedding
  | .upload fn chunks embs => upload_document_insert corpus fn chunks embs
  | .delete fn => (delete_document corpus fn).2

/-- Effect of a request sequence. -/
def applyOps (corpus : List DocumentEmbedding) : List StoreOp → List DocumentEmbedding
  | [] => corpus
  | op :: rest => applyOps (applyOp corpus op) rest

/-- The `chunk_id`s stored under a filename, in storage order. -/
def chunkIdsOf (corpus : List DocumentEmbedding) (fn : String) : List Nat :=
  (corpus.filter (fun r => decide (r.filename = fn))).map (fun r => r.chunk_id)

/-- The spec invariant: for every filename the stored chunk indices form
the dense sequence `0..n-1` in generation order. -/
def DenseIds (corpus : List DocumentEmbedding) : Prop :=
  ∀ fn : String, chunkIdsOf corpus fn = List.range (chunkIdsOf corpus fn).length

/-- Request sequences in which every upload targets a filename with no
chunks currently stored (a file is only re-uploaded after deletion). -/
def freshOk : List DocumentEmbedding → List StoreOp → Bool
  | _, [] => true
  | corpus, .upload fn chunks embs :: rest =>
    (chunkIdsOf corpus fn).isEmpty &&
      freshOk (applyOp corpus (.upload fn chunks embs)) rest
  | corpus, .delete fn :: rest => freshOk (applyOp corpus (.delete fn)) rest

theorem insertLoop_filename (fn : String) :
    ∀ (ps : List (String × Vec)) (i : Nat) (r : DocumentEmbedding),
      r ∈ insertLoop fn i ps → r.filename = fn := by
  intro ps
  induction ps with
  | nil => intro i r hr; cases hr
  | cons p rest ih =>
    intro i r hr
    match p with
    | (c, e) =>
      rcases List.mem_cons.mp hr with h | h
      · rw [h]
      · exact ih (i + 1) r h

theorem filter_insertLoop_self (fn : String) (ps : List (String × Vec)) (i : Nat) :
    (insertLoop fn i ps).filter (fun r => decide (r.filename = fn)) =
      insertLoop fn i ps := by
  apply List.filter_eq_self.mpr
  intro r hr
  simp [insertLoop_filename fn ps i r hr]

theorem filter_insertLoop_other (fn fn' : String) (hne : fn' ≠ fn)
    (ps : List (String × Vec)) (i : Nat) :
    (insertLoop fn i ps).filter (fun r => decide (r.filename = fn')) = [] := by
  apply List.filter_eq_nil_iff.mpr
  intro r hr
  have := insertLoop_filename fn ps i r hr
  simp [this]
  intro hcontra
  exact hne hcontra.symm

theorem insertLoop_ids (fn : String) :
    ∀ (ps : List (String × Vec)) (i : Nat),
      (insertLoop fn i ps).map (fun r => r.chunk_id) = List.range' i ps.length := by
  intro ps
  induction ps with
  | nil => intro i; rfl
  | cons p rest ih =>
    intro i
    match p with
    | (c, e) =>
      show i :: (insertLoop fn (i + 1) rest).map (fun r => r.chunk_id) = _
      rw [ih (i + 1), List.length_cons, List.range'_succ]

/-- Uploading a filename with no stored chunks preserves the dense-ids
invariant: the new rows carry ids `0..n-1` and no other filename gains
or loses rows. -/
theorem denseIds_upload_fresh (corpus : List DocumentEmbedding) (fn : String)
    (chunks : List String) (embs : List Vec)
    (hfresh : chunkIdsOf corpus fn = []) (h : DenseIds corpus) :
    DenseIds (upload_document_insert corpus fn chunks embs) := by
  intro fn'
  unfold upload_document_insert chunkIdsOf
  rw [List.filter_append, List.map_append]
  by_cases hf : fn' = fn
  · subst hf
    have hnil : (corpus.filter (fun r => decide (r.filename = fn'))).map
        (fun r => r.chunk_id) = [] := hfresh
    have hnil2 : corpus.filter (fun r => decide (r.filename = fn')) = [] := by
      cases hc : corpus.filter (fun r => decide (r.filename = fn')) with
      | nil => rfl
      | cons a l => rw [hc] at hnil; cases hnil
    rw [hnil2, filter_insertLoop_self, insertLoop_ids]
    simp [List.range_eq_range']
  · rw [filter_insertLoop_other fn fn' hf]
    simpa [chunkIdsOf] using h fn'

/-- Deleting any filename preserves the dense-ids invariant. -/
theorem denseIds_delete (corpus : List DocumentEmbedding) (fn : String)
    (h : DenseIds corpus) : DenseIds ((delete_document corpus fn).2) := by
  by_cases hemp : (corpus.filter (fun r => decide (r.filename = fn))).isEmpty = true
  · have hd : (delete_document corpus fn).2 = corpus := by
      unfold delete_document
      rw [if_pos hemp]
    rw [hd]
    exact h
  · have hd : (delete_document corpus fn).2 =
        corpus.filter (fun r => decide (¬ r.filename = fn)) := by
      unfold delete_document
      rw [if_neg hemp]
    rw [hd]
    intro fn'
    unfold chunkIdsOf
    rw [List.filter_filter]
    by_cases hf : fn' = fn
    · subst hf
      have : corpus.filter (fun a => decide (a.filename = fn') &&
          decide (¬ a.filename = fn')) = [] := by
        apply List.filter_eq_nil_iff.mpr
        intro a _
        by_cases ha : a.filename = fn' <;> simp [ha]
      rw [this]
      rfl
    · have : corpus.filter (fun a => decide (a.filename = fn') &&
          decide (¬ a.filename = fn)) =
          corpus.filter (fun a => decide (a.filename = fn')) := by
        apply List.filter_congr
        intro a _
        by_cases ha : a.filename = fn'
        · simp [ha]
          intro hcontra
          exact hf (ha ▸ hcontra)
        · simp [ha]
      rw [this]
      exact h fn'

theorem denseIds_applyOps :
    ∀ (ops : List StoreOp) (corpus : List DocumentEmbedding),
      DenseIds corpus → freshOk corpus ops = true → DenseIds (applyOps corpus ops) := by
  intro ops
  induction ops with
  | nil => intro corpus h _; exact h
  | cons op rest ih =>
    intro corpus h hok
    match op with
    | .upload fn chunks embs =>
      have hsplit := (Bool.and_eq_true _ _).mp hok
      have hfresh : chunkIdsOf corpus fn = [] := List.isEmpty_iff.mp hsplit.1
      exact ih _ (denseIds_upload_fresh corpus fn chunks embs hfresh h) hsplit.2
    | .delete fn =>
      exact ih _ (denseIds_delete corpus fn h) hok

/-- C9 (counterexample): uploading `"f"` while `"f"` already has stored
chunks appends rows whose `chunk_id`s restart at 0, so the ids for
`"f"` become `[0, 0, 1]` — not the dense sequence `[0, 1, 2]`.  The
upload handler neither deletes nor renumbers the existing rows. -/
theorem dense_chunk_ids_reupload_counterexample :
    ¬ DenseIds (applyOps []
      [.upload "f" ["a"] [[1]], .upload "f" ["b", "c"] [[1], [2]]]) := by
  intro h
  have hf := h "f"
  exact absurd hf (by decide)

/-- C9 (amended): starting from the empty store, the dense-ids invariant
holds after every sequence of uploads and deletions in which each upload
targets a filename with no currently stored chunks; uploading an
already-present filename is exactly the operation that violates it. -/
theorem dense_chunk_ids_fresh_ops (ops : List StoreOp)
    (h : freshOk [] ops = true) : DenseIds (applyOps [] ops) :=
  denseIds_applyOps ops [] (fun _ => rfl) h

/-- Witness for `dense_chunk_ids_fresh_ops`: upload, delete, then
re-upload the same filename (legal because the delete emptied it). -/
theorem dense_chunk_ids_fresh_ops_witness :
    freshOk [] [.upload "f" ["a"] [[1]], .delete "f",
      .upload "f" ["b", "c"] [[1], [2]]] = true
    ∧ DenseIds (applyOps [] [.upload "f" ["a"] [[1]], .delete "f",
        .upload "f" ["b", "c"] [[1], [2]]]) := by
  constructor
  · decide
  · exact dense_chunk_ids_fresh_ops _ (by decide)
